import Mathlib

/-!
Verification of the POS (point-of-sale) data analysis scripts.

The Python source operates on pandas DataFrames.  We embed a transaction
table as a list of records (`Row`), preprocessing (`POSDataAnalyzer._preprocess_data`
in utils.py) as a function from raw rows to enriched rows (`PRow`), and each
aggregator as a pure function on row lists.  Prices are modelled as exact
rationals; pandas floating point arithmetic is idealised as exact arithmetic.

Modelling notes, recorded once here:
* pandas `groupby` orders group keys ascending; we enumerate group keys with
  `List.dedup`.  No verified property depends on the order of group keys.
* pandas `Series.std` is the sample standard deviation (ddof = 1).  For a
  single-element group it returns NaN, and both strict comparisons against a
  NaN bound are false, so such a row is never flagged.  We model the variance
  of a group of size at most one as 0, and the flag as the squared comparison
  `(price - mean)^2 > 9 * var`, which agrees with the source flag
  `price > mean + 3*std or price < mean - 3*std` in every case (theorem for
  claim C1 proves the equivalence against the mean plus/minus 3*sqrt(var) band).
* `numpy.round` rounds half to even; `roundHalfToEven` models it exactly.
-/

/-- Weekday names as produced by the pandas day_name accessor, Monday first. -/
def dayNames : List String :=
  ["Monday", "Tuesday", "Wednesday", "Thursday", "Friday", "Saturday", "Sunday"]

/-- A timestamp, modelled as whole minutes since 1970-01-01 00:00, a Thursday. -/
abbrev Timestamp := Nat

/-- Calendar date of a timestamp (days since the epoch); models dt.date. -/
def dateOf (ts : Timestamp) : Nat := ts / 1440

/-- Hour of day, 0 to 23; models dt.hour. -/
def hourOf (ts : Timestamp) : Nat := ts % 1440 / 60

/-- Weekday name of a timestamp; models the dt day_name accessor.  Day 0 of
the epoch is a Thursday, index 3 in the Monday-first list. -/
def dayNameOf (ts : Timestamp) : String := dayNames.getD ((dateOf ts + 3) % 7) ""

/-- One raw transaction record, with the eight required columns of the loader
in utils.py.  A missing payment type (NaN in pandas) is `none`. -/
structure Row where
  timestamp : Timestamp
  location : String
  server_id : String
  table_number : Nat
  item_name : String
  item_category : String
  price : ℚ
  payment_type : Option String
deriving DecidableEq

/-- One enriched record, as produced by POSDataAnalyzer preprocessing: the raw
columns plus date, hour, day_of_week, the filled payment type and the
price anomaly flag. -/
structure PRow where
  timestamp : Timestamp
  location : String
  server_id : String
  table_number : Nat
  item_name : String
  item_category : String
  price : ℚ
  payment_type : String
  date : Nat
  hour : Nat
  day_of_week : String
  price_anomaly : Bool
deriving DecidableEq

/-- Rounding of a rational to the nearest integer, halves to even: the
behaviour of numpy.round, used by the pandas round method. -/
def roundHalfToEven (x : ℚ) : ℤ :=
  if x - ⌊x⌋ < 1/2 then ⌊x⌋
  else if 1/2 < x - ⌊x⌋ then ⌊x⌋ + 1
  else if 2 ∣ ⌊x⌋ then ⌊x⌋ else ⌊x⌋ + 1

/-- Rounding to k decimal places, halves to even; models the pandas
round method with argument k. -/
def roundTo (k : Nat) (x : ℚ) : ℚ := (roundHalfToEven (x * 10 ^ k) : ℚ) / 10 ^ k

/-- Mean of a list of rationals; models the pandas mean aggregation.  For the
empty list this is 0/0 = 0; pandas would give NaN, but no modelled group is
empty. -/
def qmean (xs : List ℚ) : ℚ := xs.sum / (xs.length : ℚ)

/-- Prices of all rows of the table carrying the given item name: the group
that groupby on item_name forms for that name. -/
def itemPrices (rows : List Row) (name : String) : List ℚ :=
  (rows.filter (fun r => r.item_name = name)).map (fun r => r.price)

/-- Sample variance (ddof = 1) of a list of rationals, the square of the
pandas std aggregation.  For a group of size at most one, pandas std is NaN;
we use 0, which yields the same anomaly flags (see the modelling notes). -/
def sampleVar (xs : List ℚ) : ℚ :=
  if xs.length ≤ 1 then 0
  else (xs.map (fun x => (x - qmean xs) ^ 2)).sum / ((xs.length : ℚ) - 1)

/-- The price anomaly flag of a row, computed from the per-item mean and
sample variance over the whole table, as in _preprocess_data: the source
flags a row when its price is strictly above mean + 3*std or strictly below
mean - 3*std, which for a nonnegative variance v is equivalent to
(price - mean)^2 > 9*v; for the singleton NaN-std case both comparisons are
false, matching v = 0 here. -/
def anomalyFlag (rows : List Row) (r : Row) : Bool :=
  let m := qmean (itemPrices rows r.item_name)
  let v := sampleVar (itemPrices rows r.item_name)
  decide ((r.price - m) ^ 2 > 9 * v)

/-- Enrichment of a single row by _preprocess_data: derived time columns,
payment type filled with the UNKNOWN sentinel, and the anomaly flag from the
per-item statistics of the whole table. -/
def preprocessRow (rows : List Row) (r : Row) : PRow :=
  { timestamp := r.timestamp
    location := r.location
    server_id := r.server_id
    table_number := r.table_number
    item_name := r.item_name
    item_category := r.item_category
    price := r.price
    payment_type := r.payment_type.getD "UNKNOWN"
    date := dateOf r.timestamp
    hour := hourOf r.timestamp
    day_of_week := dayNameOf r.timestamp
    price_anomaly := anomalyFlag rows r }

/-- The whole preprocessing step of POSDataAnalyzer: every row is enriched,
with the per-item statistics taken over the same table (the merge on
item_name gives each row the bounds of its own item group). -/
def preprocess (rows : List Row) : List PRow := rows.map (preprocessRow rows)

/-- The eight required columns checked by load_pos_data in utils.py. -/
def required_columns : List String :=
  ["timestamp", "location", "server_id", "table_number",
   "item_name", "item_category", "price", "payment_type"]

/-- The required columns absent from a loaded table, as computed by the set
difference in load_pos_data (modelled in the order of the required list; the
source uses an unordered set). -/
def missingColumns (cols : List String) : List String :=
  required_columns.filter (fun c => decide (c ∉ cols))

/-- A schema failure carries the list of missing required fields; the source
raises ValueError with that list in its message, the schema error of the
error taxonomy. -/
abbrev SchemaError := List String

/-- Schema validation of load_pos_data on the column list of the loaded
table: fail with the missing columns when any required column is absent,
succeed otherwise. -/
def load_pos_data_schema_check (cols : List String) : Except SchemaError Unit :=
  let missing := missingColumns cols
  if missing.isEmpty then Except.ok () else Except.error missing

/-- Group keys of a pandas groupby over one string column: the distinct
values occurring in the table. -/
def distinctStrings (xs : List String) : List String := xs.dedup

/-- One row of the payment-type distribution of analyze_payment_types. -/
structure PaymentStats where
  transaction_count : Nat
  total_sales : ℚ
  avg_ticket : ℚ
  sales_percentage : ℚ
deriving DecidableEq

/-- Payment types occurring in the preprocessed table (the UNKNOWN sentinel
included, since preprocessing filled every missing value). -/
def paymentTypes (prows : List PRow) : List String :=
  distinctStrings (prows.map (fun r => r.payment_type))

/-- Rounded total sales of one payment-type group, as in analyze_payment_types
(the round method is applied to the aggregation result before the
percentage is derived). -/
def paymentTotalSales (prows : List PRow) (pt : String) : ℚ :=
  roundTo 2 (((prows.filter (fun r => r.payment_type = pt)).map (fun r => r.price)).sum)

/-- Sum of the rounded per-payment-type total sales: the divisor of the
sales_percentage derivation. -/
def totalSalesSum (prows : List PRow) : ℚ :=
  ((paymentTypes prows).map (fun pt => paymentTotalSales prows pt)).sum

/-- The payment-type distribution of analyze_payment_types: per payment type
the transaction count, rounded total sales, rounded mean ticket and the
percentage share of the summed rounded totals, itself rounded. -/
def analyze_payment_types (prows : List PRow) : List (String × PaymentStats) :=
  (paymentTypes prows).map (fun pt =>
    let g := prows.filter (fun r => r.payment_type = pt)
    (pt,
      { transaction_count := g.length
        total_sales := paymentTotalSales prows pt
        avg_ticket := roundTo 2 (qmean (g.map (fun r => r.price)))
        sales_percentage :=
          roundTo 2 (paymentTotalSales prows pt / totalSalesSum prows * 100) }))

/-- Sum of the sales_percentage column of the payment-type distribution. -/
def sumSalesPercentage (prows : List PRow) : ℚ :=
  ((analyze_payment_types prows).map (fun p => p.2.sales_percentage)).sum

/-- Locations occurring in the table, the group keys of the per-location
groupby of the heatmap script. -/
def locations (prows : List PRow) : List String :=
  distinctStrings (prows.map (fun r => r.location))

/-- Distinct calendar dates occurring at a location, over all its records
regardless of hour: the nunique aggregation of the heatmap script. -/
def locationDates (prows : List PRow) (loc : String) : List Nat :=
  ((prows.filter (fun r => r.location = loc)).map (fun r => r.date)).dedup

/-- Number of distinct dates for a location: location_days in heatmap.py. -/
def locationDays (prows : List PRow) (loc : String) : Nat :=
  (locationDates prows loc).length

/-- Order count of one location-hour bucket: the size aggregation of the
groupby on location and hour in heatmap.py. -/
def bucketTotalOrders (prows : List PRow) (loc : String) (h : Nat) : Nat :=
  (prows.filter (fun r => r.location = loc ∧ r.hour = h)).length

/-- Expected operating hours 11 to 22 inclusive: range(11, 23). -/
def expectedHours : List Nat := List.range' 11 12

/-- One cell of the location-hour heatmap. -/
structure HeatCell where
  location : String
  hour : Nat
  avg_orders : ℚ
deriving DecidableEq

/-- The heatmap data of create_location_hour_heatmap: the product of every
location of the table with the hours 11 to 22 (reindexing the bucket counts
over that product fills absent buckets with 0 and drops buckets at hours
outside the range), each cell holding the bucket count divided by the number
of distinct dates of its location, rounded to one decimal place. -/
def create_location_hour_heatmap (prows : List PRow) : List HeatCell :=
  (locations prows).flatMap (fun loc =>
    expectedHours.map (fun h =>
      { location := loc
        hour := h
        avg_orders :=
          roundTo 1 ((bucketTotalOrders prows loc h : ℚ) / (locationDays prows loc : ℚ)) }))

/-- One row of the daily-average-ticket summary of ave_ticket_by_day.py. -/
structure DayStats where
  avg_ticket : ℚ
  num_orders : Nat
  total_revenue : ℚ
deriving DecidableEq

/-- The daily-average-ticket summary: groupby on the weekday name of the raw
timestamp, aggregation of mean, count and sum of price rounded to two
decimals, then reindexing onto the canonical Monday-to-Sunday list, which
leaves a missing (NaN, here `none`) entry for a weekday absent from the
data. -/
def analyze_daily_average_tickets (rows : List Row) : List (String × Option DayStats) :=
  dayNames.map (fun d =>
    let xs := (rows.filter (fun r => dayNameOf r.timestamp = d)).map (fun r => r.price)
    (d, if xs.isEmpty then none
        else some { avg_ticket := roundTo 2 (qmean xs)
                    num_orders := xs.length
                    total_revenue := roundTo 2 xs.sum }))

/-- One row of the server-performance summary of analyze_server_performance. -/
structure ServerStats where
  server_id : String
  transaction_count : Nat
  total_sales : ℚ
  avg_ticket : ℚ
  items_sold : Nat
  price_anomalies : Nat
  items_per_transaction : ℚ
deriving DecidableEq

/-- Server ids occurring in the preprocessed table, the group keys of the
groupby on server_id. -/
def serverIds (prows : List PRow) : List String :=
  distinctStrings (prows.map (fun r => r.server_id))

/-- The metrics row of one server group: counts, rounded sums and means of
price, the count of flagged rows, and the derived items-per-transaction
ratio.  The count aggregation of item_name equals the group size, as does
the count of price. -/
def serverRow (prows : List PRow) (sid : String) : ServerStats :=
  let g := prows.filter (fun r => r.server_id = sid)
  { server_id := sid
    transaction_count := g.length
    total_sales := roundTo 2 ((g.map (fun r => r.price)).sum)
    avg_ticket := roundTo 2 (qmean (g.map (fun r => r.price)))
    items_sold := g.length
    price_anomalies := (g.filter (fun r => r.price_anomaly)).length
    items_per_transaction := roundTo 2 ((g.length : ℚ) / (g.length : ℚ)) }

/-- Descending order on total sales, the key of the final sort_values call
of analyze_server_performance. -/
def salesDescOrder (a b : ServerStats) : Prop := b.total_sales ≤ a.total_sales

instance : DecidableRel salesDescOrder :=
  fun a b => inferInstanceAs (Decidable (b.total_sales ≤ a.total_sales))

instance : IsTotal ServerStats salesDescOrder :=
  ⟨fun a b => le_total b.total_sales a.total_sales⟩

instance : IsTrans ServerStats salesDescOrder :=
  ⟨fun _ _ _ hab hbc => le_trans hbc hab⟩

/-- The server-performance summary: one metrics row per server id, rows with
a transaction count below the threshold removed, the rest sorted by total
sales in descending order.  The threshold is a Python int, modelled as an
integer; the source default is 10.  pandas sort_values uses an unstable
quicksort, so only the resulting order relation is meaningful; we sort with
insertion sort, which realises one admissible outcome. -/
def analyze_server_performance (prows : List PRow) (min_transactions : ℤ) :
    List ServerStats :=
  List.insertionSort salesDescOrder
    (((serverIds prows).map (fun sid => serverRow prows sid)).filter
      (fun s => min_transactions ≤ (s.transaction_count : ℤ)))

/-- A Python-level table object for the heap model of analyzer construction:
a raw loaded table, a raw table enriched in place with the derived columns
(whose values are functions of the raw fields), or the merged enriched
table.  Only raw tables are passed to the analyzer in the scripts. -/
inductive PyTable where
  | raw : List Row → PyTable
  | derived : List Row → PyTable
  | enriched : List PRow → PyTable
deriving DecidableEq

/-- Raw rows of a heap cell; the enriched case is never the analyzer input
in any modelled flow. -/
def PyTable.rowsOf : PyTable → List Row
  | PyTable.raw rs => rs
  | PyTable.derived rs => rs
  | PyTable.enriched _ => []

/-- Construction of a POSDataAnalyzer over a mutable heap of table objects,
following __init__ and _preprocess_data step by step: the copy method
allocates a fresh cell with the contents of the argument table; the in-place
column assignments (date, hour, day_of_week, the payment fill) mutate that
fresh cell only; the merge with the price statistics rebinds the df
attribute to a second fresh cell, and the price_anomaly assignment mutates
that second fresh cell in place.  Returns the heap after construction and
the cell index the analyzer df attribute refers to. -/
def POSDataAnalyzer_init (heap : List PyTable) (dfRef : Nat) :
    List PyTable × Nat :=
  let df := heap.getD dfRef (PyTable.raw [])
  let copyRef := heap.length
  let heap1 := heap ++ [df]
  let rows := df.rowsOf
  let heap2 := heap1.set copyRef (PyTable.derived rows)
  let mergedRef := heap2.length
  let heap3 := heap2 ++ [PyTable.enriched (preprocess rows)]
  (heap3, mergedRef)

/-- Sample table used by the concrete witnesses: a Thursday lunch burger, a
late-night (hour 23) burger with a missing payment type, and a single soda
at another location. -/
def wRow1 : Row :=
  { timestamp := 720, location := "X", server_id := "S1", table_number := 3,
    item_name := "burger", item_category := "food", price := 10,
    payment_type := some "cash" }

/-- Second witness row: hour 23, outside operating hours, payment missing. -/
def wRow2 : Row :=
  { timestamp := 1380, location := "X", server_id := "S1", table_number := 4,
    item_name := "burger", item_category := "food", price := 12,
    payment_type := none }

/-- Third witness row: a single-occurrence item at another location. -/
def wRow3 : Row :=
  { timestamp := 720, location := "Y", server_id := "S2", table_number := 5,
    item_name := "soda", item_category := "drink", price := 2,
    payment_type := some "card" }

/-- The witness table. -/
def wTable : List Row := [wRow1, wRow2, wRow3]

/-- A non-empty table whose only price is 0, so the summed per-payment-type
total sales vanish: the counterexample input for the payment-percentage
claim. -/
def zeroSalesTable : List Row :=
  [{ timestamp := 720, location := "X", server_id := "S1", table_number := 1,
     item_name := "burger", item_category := "food", price := 0,
     payment_type := some "cash" }]

theorem getD_append_left {α : Type} {l l' : List α} {n : Nat} {d : α}
    (h : n < l.length) : (l ++ l').getD n d = l.getD n d := by
  simp [List.getD_eq_getElem?_getD, List.getElem?_append_left h]

theorem getD_set_ne {α : Type} {l : List α} {i n : Nat} {v d : α}
    (h : i ≠ n) : (l.set i v).getD n d = l.getD n d := by
  simp [List.getD_eq_getElem?_getD, List.getElem?_set_ne h]

theorem lookup_map_self {β : Type} (f : String → β) :
    ∀ (l : List String) (d : String), d ∈ l →
      List.lookup d (l.map (fun x => (x, f x))) = some (f d)
  | [], d, h => absurd h (List.not_mem_nil d)
  | x :: xs, d, h => by
      by_cases hdx : d = x
      · subst hdx
        simp [List.lookup]
      · have hmem : d ∈ xs := by
          rcases List.mem_cons.mp h with h1 | h1
          · exact absurd h1 hdx
          · exact h1
        have hbeq : (d == x) = false := beq_eq_false_iff_ne.mpr hdx
        simpa [List.lookup, hbeq] using lookup_map_self f xs d hmem

theorem roundHalfToEven_close (x : ℚ) : |(roundHalfToEven x : ℚ) - x| ≤ 1/2 := by
  have hf0 : ((⌊x⌋ : ℤ) : ℚ) ≤ x := Int.floor_le x
  have hf1 : x < ((⌊x⌋ : ℤ) : ℚ) + 1 := Int.lt_floor_add_one x
  unfold roundHalfToEven
  rw [abs_le]
  split_ifs with h1 h2 h3 <;> constructor <;> push_cast <;> linarith

theorem roundTo_close (k : Nat) (x : ℚ) : |roundTo k x - x| ≤ 1 / (2 * 10 ^ k) := by
  have hp : (0:ℚ) < 10 ^ k := by positivity
  have h := roundHalfToEven_close (x * 10 ^ k)
  have heq : roundTo k x - x = ((roundHalfToEven (x * 10 ^ k) : ℚ) - x * 10 ^ k) / 10 ^ k := by
    rw [roundTo]; field_simp; ring
  rw [heq, abs_div, abs_of_pos hp,
    show (1:ℚ) / (2 * 10 ^ k) = (1/2) / 10 ^ k by ring,
    div_le_div_iff_of_pos_right hp]
  exact h

theorem sum_roundTo_close {α : Type} (l : List α) (f : α → ℚ) :
    |(l.map (fun a => roundTo 2 (f a))).sum - (l.map f).sum| ≤ l.length * (1/200) := by
  induction l with
  | nil => simp
  | cons a t ih =>
      simp only [List.map_cons, List.sum_cons, List.length_cons]
      have h1 : |roundTo 2 (f a) - f a| ≤ 1/200 := by
        have h0 := roundTo_close 2 (f a)
        norm_num at h0 ⊢
        exact h0
      calc |roundTo 2 (f a) + (t.map (fun a => roundTo 2 (f a))).sum - (f a + (t.map f).sum)|
          = |(roundTo 2 (f a) - f a) + ((t.map (fun a => roundTo 2 (f a))).sum - (t.map f).sum)| := by
            ring_nf
        _ ≤ |roundTo 2 (f a) - f a| + |(t.map (fun a => roundTo 2 (f a))).sum - (t.map f).sum| :=
            abs_add _ _
        _ ≤ 1/200 + t.length * (1/200) := add_le_add h1 ih
        _ = (t.length + 1) * (1/200) := by ring
        _ = ((t.length + 1 : Nat) : ℚ) * (1/200) := by push_cast; ring

theorem sum_div_mul {α : Type} (l : List α) (g : α → ℚ) (S c : ℚ) :
    (l.map (fun a => g a / S * c)).sum = (l.map g).sum / S * c := by
  induction l with
  | nil => simp
  | cons a t ih =>
      simp only [List.map_cons, List.sum_cons, ih]
      ring

theorem sampleVar_nonneg (xs : List ℚ) : 0 ≤ sampleVar xs := by
  unfold sampleVar
  split
  · exact le_refl 0
  · rename_i hlen
    apply div_nonneg
    · apply List.sum_nonneg
      intro x hx
      obtain ⟨y, _, rfl⟩ := List.mem_map.mp hx
      positivity
    · have h2 : 2 ≤ xs.length := by omega
      have h2q : (2:ℚ) ≤ (xs.length : ℚ) := by exact_mod_cast h2
      linarith

theorem band_iff (p m v : ℝ) (hv : 0 ≤ v) :
    (p - m) ^ 2 > 9 * v ↔ (p < m - 3 * Real.sqrt v ∨ m + 3 * Real.sqrt v < p) := by
  have h9 : 9 * v = (3 * Real.sqrt v) ^ 2 := by
    rw [mul_pow, Real.sq_sqrt hv]; norm_num
  have hs : (0:ℝ) ≤ 3 * Real.sqrt v := by positivity
  rw [gt_iff_lt, h9, sq_lt_sq, abs_of_nonneg hs, ← not_le, abs_le, not_and_or, not_le, not_le]
  constructor
  · rintro (h | h)
    · left; linarith
    · right; linarith
  · rintro (h | h)
    · left; linarith
    · right; linarith

/-- C3: a loaded table missing at least one of the eight required columns
fails the loader schema check with the error listing exactly the missing
required fields, and a table containing all eight passes the check. -/
theorem schema_check_missing_columns (cols : List String) :
    (load_pos_data_schema_check cols = Except.ok () ↔
      ∀ c ∈ required_columns, c ∈ cols)
    ∧ ((∃ c ∈ required_columns, c ∉ cols) →
        load_pos_data_schema_check cols = Except.error (missingColumns cols)
        ∧ missingColumns cols ≠ []
        ∧ ∀ c, c ∈ missingColumns cols ↔ c ∈ required_columns ∧ c ∉ cols) := by
  have hmem : ∀ c, c ∈ missingColumns cols ↔ c ∈ required_columns ∧ c ∉ cols := by
    intro c
    simp [missingColumns]
  have hnil : missingColumns cols = [] ↔ ∀ c ∈ required_columns, c ∈ cols := by
    constructor
    · intro h c hc
      by_contra hnc
      have : c ∈ missingColumns cols := (hmem c).mpr ⟨hc, hnc⟩
      simp [h] at this
    · intro h
      apply List.eq_nil_iff_forall_not_mem.mpr
      intro c hc
      obtain ⟨h1, h2⟩ := (hmem c).mp hc
      exact h2 (h c h1)
  constructor
  · by_cases hc : (missingColumns cols).isEmpty
    · simp only [load_pos_data_schema_check, hc, if_true]
      simpa using (hnil.mp (List.isEmpty_iff.mp hc))
    · simp only [load_pos_data_schema_check, hc, if_false]
      constructor
      · intro h; exact absurd h (by simp)
      · intro h
        exact absurd (hnil.mpr h) (by simpa [List.isEmpty_iff] using hc)
  · rintro ⟨c, hc, hnc⟩
    have hne : missingColumns cols ≠ [] := by
      intro h
      exact hnc (hnil.mp h c hc)
    have hce : ¬ (missingColumns cols).isEmpty := by
      simpa [List.isEmpty_iff] using hne
    refine ⟨?_, hne, hmem⟩
    simp [load_pos_data_schema_check, hce]

/-- Witness for C3: a table having only the timestamp column fails the
schema check listing the other seven required fields. -/
theorem schema_check_missing_columns_witness :
    load_pos_data_schema_check ["timestamp"] = Except.error (missingColumns ["timestamp"]) :=
  ((schema_check_missing_columns ["timestamp"]).2 (by decide)).1

/-- C6: the daily-average-by-weekday summary always has exactly the seven
canonical weekday keys in Monday-to-Sunday order, whatever weekdays occur in
the input. -/
theorem daily_average_keys_canonical (rows : List Row) :
    (analyze_daily_average_tickets rows).map Prod.fst = dayNames := rfl

/-- Witness for C6: the canonical key list on the concrete witness table. -/
theorem daily_average_keys_canonical_witness :
    (analyze_daily_average_tickets wTable).map Prod.fst = dayNames :=
  daily_average_keys_canonical wTable

/-- C10: a canonical weekday with no transaction in the input appears in the
daily-average-by-weekday summary with a missing entry (the reindex places
NaN there), not with zero metrics. -/
theorem daily_average_missing_day_null (rows : List Row) (d : String)
    (hd : d ∈ dayNames)
    (habs : ∀ r ∈ rows, dayNameOf r.timestamp ≠ d) :
    (analyze_daily_average_tickets rows).lookup d = some none := by
  unfold analyze_daily_average_tickets
  rw [lookup_map_self _ dayNames d hd]
  have hfil : rows.filter (fun r => decide (dayNameOf r.timestamp = d)) = [] := by
    apply List.filter_eq_nil_iff.mpr
    intro a ha
    simpa using habs a ha
  simp [hfil]

/-- Witness for C10: the witness table has only Thursday transactions, so
Monday is present with a missing entry. -/
theorem daily_average_missing_day_null_witness :
    (analyze_daily_average_tickets wTable).lookup "Monday" = some none :=
  daily_average_missing_day_null wTable "Monday" (by decide) (by decide)

/-- C8: constructing a POSDataAnalyzer mutates only the freshly allocated
copy of the input table and the freshly allocated merge result, so the
heap cell holding the caller's table is unchanged after construction. -/
theorem analyzer_init_preserves_caller (heap : List PyTable) (dfRef : Nat)
    (hd : dfRef < heap.length) :
    (POSDataAnalyzer_init heap dfRef).1.getD dfRef (PyTable.raw [])
      = heap.getD dfRef (PyTable.raw []) := by
  simp only [POSDataAnalyzer_init]
  rw [getD_append_left (by simpa using Nat.lt_succ_of_lt hd),
    getD_set_ne (Nat.ne_of_gt hd),
    getD_append_left hd]

/-- Witness for C8: the singleton heap holding the witness table. -/
theorem analyzer_init_preserves_caller_witness :
    (POSDataAnalyzer_init [PyTable.raw wTable] 0).1.getD 0 (PyTable.raw [])
      = [PyTable.raw wTable].getD 0 (PyTable.raw []) :=
  analyzer_init_preserves_caller [PyTable.raw wTable] 0 (by decide)

/-- C2: an item occurring exactly once in the table is never flagged as a
price anomaly by preprocessing (pandas sample std of a singleton group is
NaN and both strict comparisons against NaN bounds are false; equivalently
the zero-variance band collapses onto the single price itself). -/
theorem single_occurrence_not_flagged (rows : List Row) (e : PRow)
    (he : e ∈ preprocess rows)
    (hsingle : (rows.filter (fun r => r.item_name = e.item_name)).length = 1) :
    e.price_anomaly = false := by
  obtain ⟨r, hr, rfl⟩ := List.mem_map.mp he
  simp only [preprocessRow] at hsingle ⊢
  obtain ⟨a, ha⟩ := List.length_eq_one.mp hsingle
  have hra : r ∈ rows.filter (fun x => decide (x.item_name = r.item_name)) :=
    List.mem_filter.mpr ⟨hr, by simp⟩
  rw [ha] at hra
  have har : a = r := by
    have := List.mem_singleton.mp hra
    exact this.symm
  subst har
  have hip : itemPrices rows a.item_name = [a.price] := by
    unfold itemPrices
    rw [ha]
    rfl
  simp [anomalyFlag, hip, qmean, sampleVar]

/-- Witness for C2: the soda row occurs once in the witness table and its
enrichment is unflagged. -/
theorem single_occurrence_not_flagged_witness :
    (preprocessRow wTable wRow3).price_anomaly = false :=
  single_occurrence_not_flagged wTable (preprocessRow wTable wRow3)
    (List.mem_map_of_mem _ (by decide)) (by decide)

/-- C5: for every location of the table and every hour from 11 to 22 the
heatmap data holds a cell, whose value is the bucket order count divided by
the number of distinct dates of the location rounded to one decimal, and a
zero-order bucket yields the value 0. -/
theorem heatmap_cell_complete (prows : List PRow) (loc : String) (h : Nat)
    (hl : loc ∈ locations prows) (h11 : 11 ≤ h) (h22 : h ≤ 22) :
    ∃ c ∈ create_location_hour_heatmap prows,
      c.location = loc ∧ c.hour = h ∧
      c.avg_orders =
        roundTo 1 ((bucketTotalOrders prows loc h : ℚ) / (locationDays prows loc : ℚ)) ∧
      (bucketTotalOrders prows loc h = 0 → c.avg_orders = 0) := by
  have hh : h ∈ expectedHours := by
    unfold expectedHours
    rw [List.mem_range']
    exact ⟨h - 11, by omega, by omega⟩
  refine ⟨{ location := loc, hour := h,
            avg_orders := roundTo 1
              ((bucketTotalOrders prows loc h : ℚ) / (locationDays prows loc : ℚ)) },
    ?_, rfl, rfl, rfl, ?_⟩
  · exact List.mem_flatMap.mpr ⟨loc, hl, List.mem_map.mpr ⟨h, hh, rfl⟩⟩
  · intro h0
    simp only [h0]
    norm_num [roundTo, roundHalfToEven]

/-- Witness for C5: location X at hour 12 in the witness table. -/
theorem heatmap_cell_complete_witness :
    HeatCell.mk "X" 12
        (roundTo 1 ((bucketTotalOrders (preprocess wTable) "X" 12 : ℚ)
          / (locationDays (preprocess wTable) "X" : ℚ)))
      ∈ create_location_hour_heatmap (preprocess wTable) := by
  obtain ⟨c, hc, h1, h2, h3, _⟩ :=
    heatmap_cell_complete (preprocess wTable) "X" 12 (by decide) (by decide) (by decide)
  have : c = HeatCell.mk "X" 12
      (roundTo 1 ((bucketTotalOrders (preprocess wTable) "X" 12 : ℚ)
        / (locationDays (preprocess wTable) "X" : ℚ))) := by
    cases c
    simp only at h1 h2 h3
    rw [h1, h2, h3]
  exact this ▸ hc

/-- C9: a record at an hour outside the 11 to 22 operating range appears in
no heatmap cell (the reindex onto the location-hour product drops its
bucket), while its calendar date still belongs to the distinct-date list of
its location, whose length is the averaging divisor locationDays. -/
theorem out_of_range_hour_dropped (prows : List PRow) (r : PRow)
    (hr : r ∈ prows) (hh : r.hour < 11 ∨ 22 < r.hour) :
    (∀ c ∈ create_location_hour_heatmap prows, c.hour ≠ r.hour)
    ∧ r.date ∈ locationDates prows r.location := by
  constructor
  · intro c hc
    obtain ⟨loc, _, hcm⟩ := List.mem_flatMap.mp hc
    obtain ⟨hr', hmem, rfl⟩ := List.mem_map.mp hcm
    have : 11 ≤ hr' ∧ hr' < 23 := by
      unfold expectedHours at hmem
      rw [List.mem_range'] at hmem
      obtain ⟨i, hi, rfl⟩ := hmem
      omega
    simp only
    omega
  · unfold locationDates
    rw [List.mem_dedup]
    exact List.mem_map_of_mem _ (List.mem_filter.mpr ⟨hr, by simp⟩)

/-- Witness for C9: the hour-23 row of the witness table still contributes
its date to the distinct-date list of location X. -/
theorem out_of_range_hour_dropped_witness :
    (preprocessRow wTable wRow2).date
      ∈ locationDates (preprocess wTable) (preprocessRow wTable wRow2).location :=
  (out_of_range_hour_dropped (preprocess wTable) (preprocessRow wTable wRow2)
    (List.mem_map_of_mem _ (by decide)) (Or.inr (by decide))).2

/-- C1: after preprocessing, a row is flagged exactly when its price lies
strictly outside the band mean plus or minus three sample standard
deviations, the statistics taken over all rows of the same item name in the
same table (for a singleton group the variance is zero and the band
collapses onto the single price, in line with the unflagged NaN-bound
behaviour of the source). -/
theorem anomaly_flag_iff_band (rows : List Row) (e : PRow)
    (he : e ∈ preprocess rows) :
    e.price_anomaly = true ↔
      ((e.price : ℝ) < ((qmean (itemPrices rows e.item_name) : ℚ) : ℝ)
          - 3 * Real.sqrt ((sampleVar (itemPrices rows e.item_name) : ℚ) : ℝ)
        ∨ ((qmean (itemPrices rows e.item_name) : ℚ) : ℝ)
          + 3 * Real.sqrt ((sampleVar (itemPrices rows e.item_name) : ℚ) : ℝ)
          < (e.price : ℝ)) := by
  obtain ⟨r, hr, rfl⟩ := List.mem_map.mp he
  simp only [preprocessRow, anomalyFlag, decide_eq_true_eq]
  have hv : (0:ℝ) ≤ ((sampleVar (itemPrices rows r.item_name) : ℚ) : ℝ) := by
    exact_mod_cast sampleVar_nonneg (itemPrices rows r.item_name)
  rw [← band_iff ((r.price : ℝ)) (((qmean (itemPrices rows r.item_name) : ℚ)) : ℝ) _ hv]
  constructor <;> intro h <;> exact_mod_cast h

/-- Witness for C1: the first burger row of the witness table. -/
theorem anomaly_flag_iff_band_witness :
    (preprocessRow wTable wRow1).price_anomaly = true ↔
      (((preprocessRow wTable wRow1).price : ℝ)
          < ((qmean (itemPrices wTable (preprocessRow wTable wRow1).item_name) : ℚ) : ℝ)
            - 3 * Real.sqrt
              ((sampleVar (itemPrices wTable (preprocessRow wTable wRow1).item_name) : ℚ) : ℝ)
        ∨ ((qmean (itemPrices wTable (preprocessRow wTable wRow1).item_name) : ℚ) : ℝ)
            + 3 * Real.sqrt
              ((sampleVar (itemPrices wTable (preprocessRow wTable wRow1).item_name) : ℚ) : ℝ)
            < ((preprocessRow wTable wRow1).price : ℝ)) :=
  anomaly_flag_iff_band wTable (preprocessRow wTable wRow1)
    (List.mem_map_of_mem _ (by decide))

/-- C7: the server-performance summary holds a row for a server id exactly
when the id occurs in the table with a transaction count at least the
threshold (in particular, with threshold 0 every occurring server appears,
since every count is at least 0), and the summary is sorted by total sales
in descending order. -/
theorem server_performance_threshold_and_sorted (prows : List PRow) (thr : ℤ) :
    (∀ sid : String,
        (∃ s ∈ analyze_server_performance prows thr, s.server_id = sid) ↔
          (sid ∈ serverIds prows
            ∧ thr ≤ ((prows.filter (fun r => r.server_id = sid)).length : ℤ)))
    ∧ List.Sorted salesDescOrder (analyze_server_performance prows thr) := by
  have hperm :
      List.Perm
        (List.insertionSort salesDescOrder
          (((serverIds prows).map (fun sid => serverRow prows sid)).filter
            (fun s => decide (thr ≤ (s.transaction_count : ℤ)))))
        (((serverIds prows).map (fun sid => serverRow prows sid)).filter
          (fun s => decide (thr ≤ (s.transaction_count : ℤ)))) :=
    List.perm_insertionSort _ _
  constructor
  · intro sid
    constructor
    · rintro ⟨s, hs, rfl⟩
      obtain ⟨hmap, hcnt⟩ := List.mem_filter.mp ((hperm.mem_iff).mp hs)
      obtain ⟨sid', hsid', rfl⟩ := List.mem_map.mp hmap
      refine ⟨by simpa [serverRow] using hsid', ?_⟩
      simp only [serverRow, decide_eq_true_eq] at hcnt ⊢
      exact hcnt
    · rintro ⟨hmem, hcnt⟩
      refine ⟨serverRow prows sid, ?_, rfl⟩
      apply (hperm.mem_iff).mpr
      apply List.mem_filter.mpr
      refine ⟨List.mem_map_of_mem _ hmem, ?_⟩
      simp only [serverRow, decide_eq_true_eq]
      exact hcnt
  · exact List.sorted_insertionSort salesDescOrder _

/-- Witness for C7: at threshold 0 the summary of the witness table is
sorted descending by total sales. -/
theorem server_performance_threshold_and_sorted_witness :
    List.Sorted salesDescOrder (analyze_server_performance (preprocess wTable) 0) :=
  (server_performance_threshold_and_sorted (preprocess wTable) 0).2

/-- Counterexample to C4 as stated: the non-empty zero-price table yields a
payment-type distribution whose sales_percentage column sums to 0 (the source
divides by a zero total, producing NaN percentages whose pandas sum is 0.0),
which is not 100 within any rounding tolerance. -/
theorem payment_percentage_zero_total_counterexample :
    preprocess zeroSalesTable ≠ []
    ∧ sumSalesPercentage (preprocess zeroSalesTable) = 0
    ∧ ¬ |sumSalesPercentage (preprocess zeroSalesTable) - 100|
        ≤ ((paymentTypes (preprocess zeroSalesTable)).length : ℚ) * (1/200) := by
  have hpt : paymentTypes (preprocess zeroSalesTable) = ["cash"] := by decide
  have ha : paymentTotalSales (preprocess zeroSalesTable) "cash" = 0 := by
    rw [paymentTotalSales]
    simp +decide only [preprocess, zeroSalesTable, preprocessRow, List.map_cons,
      List.map_nil, List.filter_cons, List.filter_nil, List.sum_cons, List.sum_nil]
    norm_num [roundTo, roundHalfToEven]
  have hS : totalSalesSum (preprocess zeroSalesTable) = 0 := by
    rw [totalSalesSum, hpt]
    simp [ha]
  have hval : sumSalesPercentage (preprocess zeroSalesTable) = 0 := by
    unfold sumSalesPercentage analyze_payment_types
    rw [hpt]
    simp only [List.map_cons, List.map_nil, List.sum_cons, List.sum_nil]
    rw [ha, hS]
    norm_num [roundTo, roundHalfToEven]
  refine ⟨by decide, hval, ?_⟩
  rw [hval, hpt]
  norm_num

/-- C4 amended: for every non-empty table whose summed rounded per-payment
total sales are nonzero, the sales_percentage column of the payment-type
distribution sums to 100 up to the accumulated two-decimal rounding
tolerance of 1/200 per payment type. -/
theorem payment_percentage_sums_to_100 (rows : List Row)
    (hne : preprocess rows ≠ [])
    (hS : totalSalesSum (preprocess rows) ≠ 0) :
    |sumSalesPercentage (preprocess rows) - 100|
      ≤ ((paymentTypes (preprocess rows)).length : ℚ) * (1/200) := by
  have hdef : sumSalesPercentage (preprocess rows) =
      ((paymentTypes (preprocess rows)).map
        (fun pt => roundTo 2
          (paymentTotalSales (preprocess rows) pt / totalSalesSum (preprocess rows) * 100))).sum := by
    unfold sumSalesPercentage analyze_payment_types
    rw [List.map_map]
    rfl
  have hexact : ((paymentTypes (preprocess rows)).map
      (fun pt => paymentTotalSales (preprocess rows) pt / totalSalesSum (preprocess rows) * 100)).sum
        = 100 := by
    rw [sum_div_mul]
    rw [show ((paymentTypes (preprocess rows)).map
      (fun pt => paymentTotalSales (preprocess rows) pt)).sum
        = totalSalesSum (preprocess rows) from rfl]
    field_simp
  calc |sumSalesPercentage (preprocess rows) - 100|
      = |((paymentTypes (preprocess rows)).map
            (fun pt => roundTo 2
              (paymentTotalSales (preprocess rows) pt / totalSalesSum (preprocess rows) * 100))).sum
          - ((paymentTypes (preprocess rows)).map
            (fun pt => paymentTotalSales (preprocess rows) pt / totalSalesSum (preprocess rows) * 100)).sum| := by
        rw [hdef, hexact]
    _ ≤ ((paymentTypes (preprocess rows)).length : ℚ) * (1/200) :=
        sum_roundTo_close _ _

/-- Witness for the amended C4: the witness table has summed rounded totals
24, so its percentages sum to 100 within the tolerance. -/
theorem payment_percentage_sums_to_100_witness :
    |sumSalesPercentage (preprocess wTable) - 100|
      ≤ ((paymentTypes (preprocess wTable)).length : ℚ) * (1/200) :=
  payment_percentage_sums_to_100 wTable (by decide)
    (by
      have hpt : paymentTypes (preprocess wTable) = ["cash", "UNKNOWN", "card"] := by decide
      have e1 : paymentTotalSales (preprocess wTable) "cash" = 10 := by
        rw [paymentTotalSales]
        simp +decide only [preprocess, wTable, preprocessRow, wRow1, wRow2, wRow3,
          List.map_cons, List.map_nil, List.filter_cons, List.filter_nil,
          List.sum_cons, List.sum_nil]
        norm_num [roundTo, roundHalfToEven]
      have e2 : paymentTotalSales (preprocess wTable) "UNKNOWN" = 12 := by
        rw [paymentTotalSales]
        simp +decide only [preprocess, wTable, preprocessRow, wRow1, wRow2, wRow3,
          List.map_cons, List.map_nil, List.filter_cons, List.filter_nil,
          List.sum_cons, List.sum_nil]
        norm_num [roundTo, roundHalfToEven]
      have e3 : paymentTotalSales (preprocess wTable) "card" = 2 := by
        rw [paymentTotalSales]
        simp +decide only [preprocess, wTable, preprocessRow, wRow1, wRow2, wRow3,
          List.map_cons, List.map_nil, List.filter_cons, List.filter_nil,
          List.sum_cons, List.sum_nil]
        norm_num [roundTo, roundHalfToEven]
      have h24 : totalSalesSum (preprocess wTable) = 24 := by
        rw [totalSalesSum, hpt]
        simp only [List.map_cons, List.map_nil, List.sum_cons, List.sum_nil, e1, e2, e3]
        norm_num
      rw [h24]
      norm_num)
